import Mathlib

/-!
Verification of the Emailing.ai lead-generation scripts.

The development shallowly embeds the three Python source files
(`main.py`, `apollo_people_search.py`, `hunter_domain_search.py`):
Python values flowing through the pipeline are modelled by an inductive
`Json` type (Python's `None` is `Json.null`), HTTP interactions are
modelled by an oracle value of type `HttpResult` per request, and
exceptions are modelled with `Except` / explicit error flags.
-/

/-- A Python/JSON value as it flows through the scripts. -/
inductive Json where
  | null : Json
  | str : String → Json
  | num : Int → Json
  | bool : Bool → Json
  | arr : List Json → Json
  | obj : List (String × Json) → Json

/-- Python truthiness (`if x:`) for the values the scripts test. -/
def Json.truthy : Json → Bool
  | .null => false
  | .str s => s ≠ ""
  | .num n => n ≠ 0
  | .bool b => b
  | .arr [] => false
  | .arr (_ :: _) => true
  | .obj [] => false
  | .obj (_ :: _) => true

/-- Python `d.get(k, default)`.  Every call site in the embedding first
checks that the receiver is an object; Python raises `AttributeError`
on a non-mapping receiver, which the call sites model as an error. -/
def Json.getD (j : Json) (k : String) (d : Json) : Json :=
  match j with
  | .obj l =>
    match l.find? (fun p => p.1 == k) with
    | some p => p.2
    | none => d
  | _ => d

/-- Python subscription `c[k]` with a string key: `none` models the
exception raised when the key is missing or the receiver is not a
string-keyed mapping (`KeyError` / `TypeError`). -/
def Json.sub? (j : Json) (k : String) : Option Json :=
  match j with
  | .obj l => (l.find? (fun p => p.1 == k)).map (fun p => p.2)
  | _ => none

/-- Python `str(x)` for the scalar values reaching the one f-string in
the scripts (`None` prints as "None"). -/
def Json.pyStr : Json → String
  | .null => "None"
  | .str s => s
  | .num n => toString n
  | .bool b => if b then "True" else "False"
  | .arr _ => "[...]"
  | .obj _ => "\x7b...\x7d"

/-- Python `s.strip()`: drop ASCII whitespace from both ends
(computable by kernel reduction, unlike `String.trim`). -/
def pyStrip (s : String) : String :=
  String.mk
    (((s.toList.dropWhile Char.isWhitespace).reverse.dropWhile
        Char.isWhitespace).reverse)

/-- Python equality `j == s` against a string literal: true exactly
when `j` is that string (values of other types never equal a string). -/
def Json.eqStr (j : Json) (s : String) : Bool :=
  match j with
  | .str t => t == s
  | _ => false

/-- The `Person` dataclass of `main.py`; each field holds the Python
value stored there (normally a string, but e.g. an explicit JSON null
is stored as-is). -/
structure Person where
  name : Json := .str ""
  email : Json := .str ""
  phone : Json := .str ""
  linkedin_url : Json := .str ""
  job_title : Json := .str ""
  company : Json := .str ""
  location : Json := .str ""

/-- The criteria dict consumed by `search_people_apollo` in `main.py`.
`none` models an absent key, `some v` a present key (possibly holding
an empty list). -/
structure Criteria where
  job_titles : Option (List String) := none
  company_names : Option (List String) := none
  locations : Option (List String) := none
  keywords : Option (List String) := none
  limit : Option Int := none
deriving Repr, DecidableEq

def strList (l : List String) : Json := .arr (l.map .str)

/-- The JSON body built by `main.py`'s `search_people_apollo`
(lines 57-70): a key is added whenever the criteria key is PRESENT
(`if 'job_titles' in criteria:`), regardless of emptiness. -/
def apolloMainPayload (c : Criteria) : List (String × Json) :=
  [("page", .num 1), ("per_page", .num (c.limit.getD 25))]
  ++ (match c.job_titles with
      | some v => [("person_titles", strList v)]
      | none => [])
  ++ (match c.company_names with
      | some v => [("organization_names", strList v)]
      | none => [])
  ++ (match c.locations with
      | some v => [("person_locations", strList v)]
      | none => [])
  ++ (match c.keywords with
      | some v => [("q_keywords", .str (String.intercalate " " v))]
      | none => [])

/-- Python truthiness of an optional list argument
(`None` and `[]` are falsy). -/
def listTruthy (o : Option (List String)) : Bool := o.getD [] ≠ []

/-- Python truthiness of an optional string (`None` and `""` falsy). -/
def strTruthy (o : Option String) : Bool := o.getD "" ≠ ""

/-- Keyword arguments of `people_search` in `apollo_people_search.py`. -/
structure PSArgs where
  person_titles : Option (List String) := none
  include_similar_titles : Bool := true
  person_locations : Option (List String) := none
  person_seniorities : Option (List String) := none
  organization_locations : Option (List String) := none
  q_organization_domains_list : Option (List String) := none
  contact_email_status : Option (List String) := none
  organization_ids : Option (List String) := none
  organization_num_employees_ranges : Option (List String) := none
  q_keywords : Option String := none
  page : Int := 1
  per_page : Int := 10
deriving Repr, DecidableEq

/-- The JSON body built by `people_search` in `apollo_people_search.py`
(lines 33-55): a key is added only when the argument is truthy
(`if person_titles:`), so `None` and empty values are both omitted. -/
def peopleSearchPayload (a : PSArgs) : List (String × Json) :=
  [("page", .num a.page), ("per_page", .num a.per_page),
   ("include_similar_titles", .bool a.include_similar_titles)]
  ++ (if listTruthy a.person_titles then
        [("person_titles", strList (a.person_titles.getD []))] else [])
  ++ (if listTruthy a.person_locations then
        [("person_locations", strList (a.person_locations.getD []))] else [])
  ++ (if listTruthy a.person_seniorities then
        [("person_seniorities", strList (a.person_seniorities.getD []))] else [])
  ++ (if listTruthy a.organization_locations then
        [("organization_locations", strList (a.organization_locations.getD []))] else [])
  ++ (if listTruthy a.q_organization_domains_list then
        [("q_organization_domains_list", strList (a.q_organization_domains_list.getD []))] else [])
  ++ (if listTruthy a.contact_email_status then
        [("contact_email_status", strList (a.contact_email_status.getD []))] else [])
  ++ (if listTruthy a.organization_ids then
        [("organization_ids", strList (a.organization_ids.getD []))] else [])
  ++ (if listTruthy a.organization_num_employees_ranges then
        [("organization_num_employees_ranges", strList (a.organization_num_employees_ranges.getD []))] else [])
  ++ (if strTruthy a.q_keywords then
        [("q_keywords", .str (a.q_keywords.getD ""))] else [])

/-- The outcome of one HTTP request, supplied as an oracle:
`netError` models the request call itself raising
(connection failure), `resp status body` a received response whose
decoded JSON body is `body` (`none` models `response.json()` raising
on an undecodable body). -/
inductive HttpResult where
  | netError : HttpResult
  | resp : Nat → Option Json → HttpResult

/-- The exception surfaced by a provider client, as seen by callers.
`httpStatus` carries the status code embedded in the raised message
(the response body is not part of it); `typeError` models an
`AttributeError`/`TypeError`/`KeyError` escaping during response
processing. -/
inductive ProviderError where
  | missingKey : ProviderError
  | netFail : ProviderError
  | httpStatus : Nat → ProviderError
  | decodeFail : ProviderError
  | typeError : ProviderError
deriving Repr, DecidableEq

/-- One item of Apollo's `people` list mapped onto a `Person`
(`main.py` lines 80-88).  `.error` models the exceptions Python raises
when the item (or its `organization` value) is not a mapping. -/
def normApollo1 (pd : Json) : Except Unit Person :=
  match pd with
  | .obj _ =>
    match pd.getD "organization" (.obj []) with
    | .obj ol =>
      .ok { name := pd.getD "name" (.str "")
            email := pd.getD "email" (.str "")
            phone := pd.getD "phone" (.str "")
            linkedin_url := pd.getD "linkedin_url" (.str "")
            job_title := pd.getD "title" (.str "")
            company := (Json.obj ol).getD "name" (.str "")
            location := pd.getD "city" (.str "") }
    | _ => .error ()
  | _ => .error ()

/-- The Apollo response-to-records loop of `main.py` (lines 76-91):
iterate `data.get('people', [])` building one `Person` per item.
`.error` models an exception escaping the loop (non-mapping response,
non-list `people` value, malformed item). -/
def normalizeApollo (data : Json) : Except Unit (List Person) :=
  match data with
  | .obj _ =>
    match data.getD "people" (.arr []) with
    | .arr items => items.mapM normApollo1
    | _ => .error ()
  | _ => .error ()

/-- One item of Hunter's `data.emails` list mapped onto a `Person`
(`main.py` lines 130-136).  `orgVal` is `data.get('data', {})
.get('organization', '')`, shared by every item; the name is the
f-string of first and last name, stripped, so it is always a string. -/
def normHunter1 (orgVal : Json) (ed : Json) : Except Unit Person :=
  match ed with
  | .obj _ =>
    .ok { name := .str (pyStrip ((ed.getD "first_name" (.str "")).pyStr ++ " "
                          ++ (ed.getD "last_name" (.str "")).pyStr))
          email := ed.getD "value" (.str "")
          job_title := ed.getD "position" (.str "")
          company := orgVal
          linkedin_url := ed.getD "linkedin" (.str "") }
  | _ => .error ()

/-- The Hunter response-to-records loop of `main.py` (lines 126-139). -/
def normalizeHunter (data : Json) : Except Unit (List Person) :=
  match data with
  | .obj _ =>
    match data.getD "data" (.obj []) with
    | .obj il =>
      match (Json.obj il).getD "emails" (.arr []) with
      | .arr items =>
        items.mapM (normHunter1 ((Json.obj il).getD "organization" (.str "")))
      | _ => .error ()
    | _ => .error ()
  | _ => .error ()

/-- Truthiness of an API-key attribute (`os.getenv` yields `None` when
unset; an empty string is also falsy in the `if self..._api_key:`
checks). -/
def keyTruthy (k : Option String) : Bool := k.getD "" ≠ ""

/-- `main.py`'s `search_people_apollo` as seen by its caller: the
request body is `apolloMainPayload criteria`; the oracle `r` is the
outcome of the POST.  `raise_for_status` raises exactly for statuses in [400, 600);
the handler wraps any `RequestException` into a generic exception
whose message embeds the HTTP error's status (never the body); other
exceptions (e.g. from a non-mapping body) escape unwrapped but are
equally errors for the caller. -/
def search_people_apollo (apolloKey : Option String) (criteria : Criteria)
    (r : HttpResult) : Except ProviderError (List Person) :=
  if ¬ keyTruthy apolloKey then .error .missingKey
  else
    let _payload := apolloMainPayload criteria
    match r with
    | .netError => .error .netFail
    | .resp status body =>
      if 400 ≤ status ∧ status < 600 then .error (.httpStatus status)
      else
        match body with
        | none => .error .decodeFail
        | some data =>
          match normalizeApollo data with
          | .ok ps => .ok ps
          | .error _ => .error .typeError

/-- `main.py`'s `search_people_hunter` as seen by its caller (the
aggregator always calls it without a job title, so only the domain and
the response outcome matter to the embedding). -/
def search_people_hunter (hunterKey : Option String) (_domain : String)
    (r : HttpResult) : Except ProviderError (List Person) :=
  if ¬ keyTruthy hunterKey then .error .missingKey
  else
    match r with
    | .netError => .error .netFail
    | .resp status body =>
      if 400 ≤ status ∧ status < 600 then .error (.httpStatus status)
      else
        match body with
        | none => .error .decodeFail
        | some data =>
          match normalizeHunter data with
          | .ok ps => .ok ps
          | .error _ => .error .typeError

/-- `people_search` of `apollo_people_search.py` as seen by its caller:
on a non-200 status it prints the status and body and returns `None`
(`.ok none`); on a 200 it returns the raw decoded JSON body.  Errors
are the missing-key `ValueError`, the request call raising, and
`response.json()` raising. -/
def people_search (apiKey : Option String) (_a : PSArgs)
    (r : HttpResult) : Except ProviderError (Option Json) :=
  if ¬ keyTruthy apiKey then .error .missingKey
  else
    match r with
    | .netError => .error .netFail
    | .resp status body =>
      if status ≠ 200 then .ok none
      else
        match body with
        | none => .error .decodeFail
        | some data => .ok (some data)

/-- `domain_search` of `hunter_domain_search.py` as seen by its caller:
same shape as `people_search` except that no API-key check is
performed before the request. -/
def domain_search (_domain : String) (_jobTitle : Option String)
    (r : HttpResult) : Except ProviderError (Option Json) :=
  match r with
  | .netError => .error .netFail
  | .resp status body =>
    if status ≠ 200 then .ok none
    else
      match body with
      | none => .error .decodeFail
      | some data => .ok (some data)

/-- The query parameter chosen for one enrichment lookup
(`main.py` lines 168-171). -/
inductive EnrichQuery where
  | byLinkedin : Json → EnrichQuery
  | byEmail : Json → EnrichQuery

/-- Lookup-key selection for one record (`main.py` lines 168-174):
prefer a truthy `linkedin_url`, else a truthy `email`, else skip the
lookup entirely. -/
def enrichQueryOf (p : Person) : Option EnrichQuery :=
  if p.linkedin_url.truthy then some (.byLinkedin p.linkedin_url)
  else if p.email.truthy then some (.byEmail p.email)
  else none

/-- Extraction `data.get('data', [{}])[0].get('contacts', [])`
(`main.py` line 184).  `.error` models the exceptions Python raises on
the way: a non-mapping body, subscripting an empty or non-list `data`
value, a non-mapping first element. -/
def extractContacts (data : Json) : Except Unit (List Json) :=
  match data with
  | .obj _ =>
    match data.getD "data" (.arr [.obj []]) with
    | .arr (first :: _) =>
      match first with
      | .obj _ =>
        match first.getD "contacts" (.arr []) with
        | .arr contacts => .ok contacts
        | _ => .error ()
      | _ => .error ()
    | _ => .error ()
  | _ => .error ()

/-- The contact-application loop (`main.py` lines 187-191), walking
the `contacts` list and filling `email` / `phone` only when the current
value is falsy.  The `Bool` records whether an exception interrupted
the loop (missing `type`/`value` key or a non-mapping entry); the
returned `Person` keeps every fill applied before the interruption,
exactly as the in-place mutation does. -/
def applyContacts : Person → List Json → Person × Bool
  | p, [] => (p, false)
  | p, c :: rest =>
    match c.sub? "type" with
    | none => (p, true)
    | some t =>
      if t.eqStr "email" && !p.email.truthy then
        match c.sub? "value" with
        | none => (p, true)
        | some v => applyContacts { p with email := v } rest
      else if t.eqStr "phone" && !p.phone.truthy then
        match c.sub? "value" with
        | none => (p, true)
        | some v => applyContacts { p with phone := v } rest
      else applyContacts p rest

/-- Processing of one record's enrichment response (`main.py` lines
176-198, inside the per-record `try`).  The `Bool` is true when an
error in the claim's taxonomy occurred for this record: the request
raised, the status was not 200, or the body was undecodable or
malformed. -/
def enrichOne (p : Person) (r : HttpResult) : Person × Bool :=
  match r with
  | .netError => (p, true)
  | .resp status body =>
    if status = 200 then
      match body with
      | none => (p, true)
      | some data =>
        match extractContacts data with
        | .error _ => (p, true)
        | .ok contacts => applyContacts p contacts
    else (p, true)

/-- The per-record step of `enrich_with_clado`: skip the lookup when
no key field is truthy, otherwise process the oracle's response for
the chosen query. -/
def enrichStep (api : EnrichQuery → HttpResult) (p : Person) : Person :=
  match enrichQueryOf p with
  | none => p
  | some q => (enrichOne p (api q)).1

/-- Whether an error occurred while enriching record `p`
(per-record exceptions are caught and the loop continues). -/
def enrichStepErr (api : EnrichQuery → HttpResult) (p : Person) : Bool :=
  match enrichQueryOf p with
  | none => false
  | some q => (enrichOne p (api q)).2

/-- `main.py`'s `enrich_with_clado` (lines 144-200): without a truthy
key, a warning is printed and the input returned unchanged; otherwise
every record is processed in order, each contributing exactly one
output record whatever its lookup's outcome. -/
def enrich_with_clado (cladoKey : Option String)
    (api : EnrichQuery → HttpResult) (people : List Person) : List Person :=
  if ¬ keyTruthy cladoKey then people
  else people.map (enrichStep api)

/-- Python substring membership helper: is `n` a prefix of `h`, else
recurse on the tail of `h`. -/
def infixAt (n : List Char) : List Char → Bool
  | [] => n.isEmpty
  | c :: t => if n.isPrefixOf (c :: t) then true else infixAt n t

/-- Python `needle in hay` on strings: contiguous-substring test. -/
def pyContains (hay needle : String) : Bool :=
  infixAt needle.toList hay.toList

/-- Python `query.lower()`: per-character lowering (the queries and
keywords involved are ASCII). -/
def pyLower (s : String) : String :=
  String.mk (s.toList.map Char.toLower)

def faangCompanies : List String :=
  ["Meta", "Apple", "Amazon", "Netflix", "Google"]

def faangDomains : List String :=
  ["meta.com", "apple.com", "amazon.com", "netflix.com", "google.com"]

/-- Outcome of the query-classification prefix of
`search_by_natural_language` (`main.py` lines 212-256): which branch
is taken and with which criteria. -/
inductive Classification where
  | faang : Criteria → List String → Classification
  | jobTitle : Criteria → Classification
  | noMatch : Classification
deriving DecidableEq

/-- The classification logic of `search_by_natural_language`
(`main.py` lines 212-256), verbatim: lower-case the query; a query
containing "faang" selects the five fixed companies with limit 50 and
the five fixed domains; otherwise the `any`-guard plus `if`/`elif`
chain over the six keywords selects a fixed job-title list with
limit 25; otherwise no branch runs. -/
def classify (query : String) : Classification :=
  let q := pyLower query
  if pyContains q "faang" then
    .faang { company_names := some faangCompanies, limit := some 50 } faangDomains
  else if ["engineer", "developer", "manager", "director", "ceo",
           "cto"].any (fun t => pyContains q t) then
    let job_titles :=
      if pyContains q "engineer" || pyContains q "developer" then
        ["Software Engineer", "Senior Software Engineer", "Developer"]
      else if pyContains q "manager" then
        ["Engineering Manager", "Product Manager", "Manager"]
      else if pyContains q "director" then
        ["Director", "Engineering Director"]
      else if pyContains q "ceo" then
        ["CEO", "Chief Executive Officer"]
      else if pyContains q "cto" then
        ["CTO", "Chief Technology Officer"]
      else []
    .jobTitle { job_titles := some job_titles, limit := some 25 }
  else .noMatch

/-- The spec's keyword table (§4.1 / C1), written as an ordered list of
(keyword set, job-title list) rows, to be compared with `classify`. -/
def jobTitleTable : List (List String × List String) :=
  [ (["engineer", "developer"],
     ["Software Engineer", "Senior Software Engineer", "Developer"]),
    (["manager"], ["Engineering Manager", "Product Manager", "Manager"]),
    (["director"], ["Director", "Engineering Director"]),
    (["ceo"], ["CEO", "Chief Executive Officer"]),
    (["cto"], ["CTO", "Chief Technology Officer"]) ]

/-- Classification as the spec states it: lower-case; "faang" selects
the fixed five companies (limit 50) and five domains; otherwise the
first row of the priority table with a matching keyword gives the
job-title list (limit 25); otherwise the empty criteria / no-search
outcome. -/
def classifySpec (query : String) : Classification :=
  let q := pyLower query
  if pyContains q "faang" then
    .faang { company_names := some faangCompanies, limit := some 50 } faangDomains
  else
    match jobTitleTable.find? (fun row => row.1.any (fun kw => pyContains q kw)) with
    | some row => .jobTitle { job_titles := some row.2, limit := some 25 }
    | none => .noMatch

/-- The API keys read from the environment in `__init__`. -/
structure Config where
  apolloKey : Option String := none
  hunterKey : Option String := none
  cladoKey : Option String := none

/-- Oracles giving the outcome of each HTTP request the aggregator can
make during one invocation. -/
structure Oracles where
  apollo : Criteria → HttpResult
  hunter : String → HttpResult
  clado : EnrichQuery → HttpResult

/-- Result extraction at an aggregator call site: an exception from the
provider client is caught (`except Exception`), printed, and leaves
the accumulated list as it was. -/
def exceptRecords : Except ProviderError (List Person) → List Person
  | .ok ps => ps
  | .error _ => []

/-- The final enrichment step of `search_by_natural_language`
(`main.py` lines 265-266): enrich only a non-empty list and only with
a truthy Clado key. -/
def maybeEnrich (cfg : Config) (api : Oracles) (people : List Person) : List Person :=
  if !people.isEmpty && keyTruthy cfg.cladoKey then
    enrich_with_clado cfg.cladoKey api.clado people
  else people

/-- `main.py`'s `search_by_natural_language` (lines 202-268): classify,
fan out to the providers with per-call exception handling, then
optionally enrich. -/
def search_by_natural_language (cfg : Config) (api : Oracles)
    (query : String) : List Person :=
  match classify query with
  | .faang criteria domains =>
    let people0 :=
      if keyTruthy cfg.apolloKey then
        exceptRecords (search_people_apollo cfg.apolloKey criteria (api.apollo criteria))
      else []
    let people1 := domains.foldl (fun acc d =>
        if keyTruthy cfg.hunterKey then
          match search_people_hunter cfg.hunterKey d (api.hunter d) with
          | .ok ps => acc ++ ps
          | .error _ => acc
        else acc) people0
    maybeEnrich cfg api people1
  | .jobTitle criteria =>
    let people :=
      if keyTruthy cfg.apolloKey then
        exceptRecords (search_people_apollo cfg.apolloKey criteria (api.apollo criteria))
      else []
    maybeEnrich cfg api people
  | .noMatch => maybeEnrich cfg api []

/-- An oracle where every request yields a 200 response with an empty
JSON object body (so every search yields zero records). -/
def emptyOracles : Oracles where
  apollo := fun _ => .resp 200 (some (.obj []))
  hunter := fun _ => .resp 200 (some (.obj []))
  clado := fun _ => .resp 200 (some (.obj []))

/-- C1: classification lower-cases the query; "faang" selects the five
fixed companies with limit 50 plus the five fixed domains; otherwise
the keywords are tested in the priority order engineer/developer,
manager, director, ceo, cto, the first match giving its fixed
job-title list with limit 25; with no match the criteria are empty and
no search is performed (the aggregator returns the empty list). -/
theorem c1_query_classifier :
    (∀ q : String, classify q = classifySpec q) ∧
    (∀ (q : String) (cfg : Config) (api : Oracles),
      classify q = Classification.noMatch →
      search_by_natural_language cfg api q = []) := by
  constructor
  · intro q
    simp only [classify, classifySpec, jobTitleTable, List.find?, List.any]
    cases hf : pyContains (pyLower q) "faang" <;>
      cases he : pyContains (pyLower q) "engineer" <;>
      cases hd : pyContains (pyLower q) "developer" <;>
      cases hm : pyContains (pyLower q) "manager" <;>
      cases hdi : pyContains (pyLower q) "director" <;>
      cases hc1 : pyContains (pyLower q) "ceo" <;>
      cases hc2 : pyContains (pyLower q) "cto" <;>
      simp [hf, he, hd, hm, hdi, hc1, hc2]
  · intro q cfg api h
    simp [search_by_natural_language, h, maybeEnrich]

/-- Witness for C1 at the spec's own examples: "something unrelated"
classifies to no match and yields the empty record list. -/
theorem c1_query_classifier_witness :
    classify "something unrelated" = Classification.noMatch ∧
    search_by_natural_language
      { apolloKey := some "a", hunterKey := some "h", cladoKey := some "c" }
      emptyOracles "something unrelated" = [] := by
  refine ⟨by decide, ?_⟩
  exact c1_query_classifier.2 "something unrelated"
    { apolloKey := some "a", hunterKey := some "h", cladoKey := some "c" }
    emptyOracles (by decide)

theorem lookup_append_sections (k : String) (l₁ l₂ : List (String × Json)) :
    List.lookup k (l₁ ++ l₂) = (List.lookup k l₁).orElse (fun _ => List.lookup k l₂) := by
  induction l₁ with
  | nil => simp [List.lookup, Option.none_orElse']
  | cons h t ih =>
    obtain ⟨k', v⟩ := h
    cases hb : k == k' <;> simp [List.lookup, hb, ih, Option.none_orElse']

theorem lookup_ite (k : String) (c : Bool) (l₁ l₂ : List (String × Json)) :
    List.lookup k (if c then l₁ else l₂)
      = if c then List.lookup k l₁ else List.lookup k l₂ := by
  cases c <;> rfl

/-- The property claim C2 asserts of the body built by `main.py`'s
Apollo client: every key besides the two fixed paging keys carries a
truthy (non-empty) value. -/
def payloadOnlyNonEmptyFields (c : Criteria) : Prop :=
  ∀ kv ∈ apolloMainPayload c,
    kv.1 ≠ "page" → kv.1 ≠ "per_page" → kv.2.truthy = true

/-- Counterexample to C2: a criteria dict whose `job_titles` key is
present but holds the empty list makes `main.py`'s client put
`person_titles: []` into the request body. -/
theorem c2_payload_counterexample :
    ¬ payloadOnlyNonEmptyFields
      { job_titles := some [], company_names := none, locations := none,
        keywords := none, limit := none } := by
  intro h
  have := h ("person_titles", Json.arr [])
    (List.Mem.tail _ (List.Mem.tail _ (List.Mem.head _)))
    (by decide) (by decide)
  simp [Json.truthy] at this

/-- C2 (amended): the standalone script's builder adds a key exactly
when its argument is truthy (non-empty), while `main.py`'s builder
keys the body on PRESENCE of the criteria field, so a present-but-empty
field does appear (as an empty list / empty keyword string). -/
theorem c2_payload_keys :
    (∀ c : Criteria,
      List.lookup "person_titles" (apolloMainPayload c) = c.job_titles.map strList ∧
      List.lookup "organization_names" (apolloMainPayload c) = c.company_names.map strList ∧
      List.lookup "person_locations" (apolloMainPayload c) = c.locations.map strList ∧
      List.lookup "q_keywords" (apolloMainPayload c)
        = c.keywords.map (fun v => Json.str (String.intercalate " " v))) ∧
    (∀ a : PSArgs,
      List.lookup "person_titles" (peopleSearchPayload a)
        = (if listTruthy a.person_titles then
            some (strList (a.person_titles.getD [])) else none) ∧
      List.lookup "person_locations" (peopleSearchPayload a)
        = (if listTruthy a.person_locations then
            some (strList (a.person_locations.getD [])) else none) ∧
      List.lookup "person_seniorities" (peopleSearchPayload a)
        = (if listTruthy a.person_seniorities then
            some (strList (a.person_seniorities.getD [])) else none) ∧
      List.lookup "organization_locations" (peopleSearchPayload a)
        = (if listTruthy a.organization_locations then
            some (strList (a.organization_locations.getD [])) else none) ∧
      List.lookup "q_organization_domains_list" (peopleSearchPayload a)
        = (if listTruthy a.q_organization_domains_list then
            some (strList (a.q_organization_domains_list.getD [])) else none) ∧
      List.lookup "contact_email_status" (peopleSearchPayload a)
        = (if listTruthy a.contact_email_status then
            some (strList (a.contact_email_status.getD [])) else none) ∧
      List.lookup "organization_ids" (peopleSearchPayload a)
        = (if listTruthy a.organization_ids then
            some (strList (a.organization_ids.getD [])) else none) ∧
      List.lookup "organization_num_employees_ranges" (peopleSearchPayload a)
        = (if listTruthy a.organization_num_employees_ranges then
            some (strList (a.organization_num_employees_ranges.getD [])) else none) ∧
      List.lookup "q_keywords" (peopleSearchPayload a)
        = (if strTruthy a.q_keywords then
            some (Json.str (a.q_keywords.getD "")) else none)) := by
  constructor
  · intro c
    obtain ⟨jt, cn, lo, kw, li⟩ := c
    cases jt <;> cases cn <;> cases lo <;> cases kw <;>
      simp [apolloMainPayload, List.lookup]
  · intro a
    refine ⟨?_, ?_, ?_, ?_, ?_, ?_, ?_, ?_, ?_⟩ <;>
      simp [peopleSearchPayload, lookup_append_sections, lookup_ite,
            List.lookup, Option.none_orElse', Option.orElse_none']

theorem applyContacts_fields (cs : List Json) (p : Person) :
    (applyContacts p cs).1.name = p.name ∧
    (applyContacts p cs).1.linkedin_url = p.linkedin_url ∧
    (applyContacts p cs).1.job_title = p.job_title ∧
    (applyContacts p cs).1.company = p.company ∧
    (applyContacts p cs).1.location = p.location ∧
    (p.email.truthy = true → (applyContacts p cs).1.email = p.email) ∧
    (p.phone.truthy = true → (applyContacts p cs).1.phone = p.phone) := by
  induction cs generalizing p with
  | nil => simp [applyContacts]
  | cons c rest ih =>
    simp only [applyContacts]
    cases hc : c.sub? "type" with
    | none => simp
    | some t =>
      cases h1 : (t.eqStr "email" && !p.email.truthy)
      · cases h2 : (t.eqStr "phone" && !p.phone.truthy)
        · simpa [h1, h2] using ih p
        · simp only [h1, h2, Bool.false_eq_true, if_false, if_true]
          cases hv : c.sub? "value" with
          | none => simp
          | some v =>
            have hp : p.phone.truthy = false := by
              have := (Bool.and_eq_true _ _).mp h2
              simpa using this.2
            obtain ⟨n, lu, jt, co, lo, em, ph⟩ := ih { p with phone := v }
            refine ⟨n, lu, jt, co, lo, fun he => em he, fun hph => ?_⟩
            rw [hp] at hph
            exact absurd hph (by simp)
      · simp only [h1, Bool.false_eq_true, if_true]
        cases hv : c.sub? "value" with
        | none => simp
        | some v =>
          have hpe : p.email.truthy = false := by
            have := (Bool.and_eq_true _ _).mp h1
            simpa using this.2
          obtain ⟨n, lu, jt, co, lo, em, ph⟩ := ih { p with email := v }
          refine ⟨n, lu, jt, co, lo, fun he => ?_, fun hph => ph hph⟩
          rw [hpe] at he
          exact absurd he (by simp)

theorem enrichStep_fields (api : EnrichQuery → HttpResult) (p : Person) :
    (enrichStep api p).name = p.name ∧
    (enrichStep api p).linkedin_url = p.linkedin_url ∧
    (enrichStep api p).job_title = p.job_title ∧
    (enrichStep api p).company = p.company ∧
    (enrichStep api p).location = p.location ∧
    (p.email.truthy = true → (enrichStep api p).email = p.email) ∧
    (p.phone.truthy = true → (enrichStep api p).phone = p.phone) := by
  unfold enrichStep
  cases hq : enrichQueryOf p with
  | none => simp
  | some q =>
    unfold enrichOne
    cases hr : api q with
    | netError => simp [hr]
    | resp status body =>
      by_cases hs : status = 200
      · cases body with
        | none => simp [hr, hs]
        | some data =>
          cases hx : extractContacts data with
          | error e => simp [hr, hs, hx]
          | ok contacts =>
            simpa [hr, hs, hx] using applyContacts_fields contacts p
      · simp [hr, hs]

/-- C3: enrichment never overwrites a record's truthy (non-empty)
email or phone: for every batch and every provider response, a record
whose email (resp. phone) was non-empty on input keeps it, and the
five other fields are never touched at all; only fields empty on input
can be filled. -/
theorem c3_enrich_never_overwrites :
    ∀ (cladoKey : Option String) (api : EnrichQuery → HttpResult)
      (people : List Person) (i : Nat) (p q : Person),
      people[i]? = some p →
      (enrich_with_clado cladoKey api people)[i]? = some q →
      (p.email.truthy = true → q.email = p.email) ∧
      (p.phone.truthy = true → q.phone = p.phone) ∧
      q.name = p.name ∧ q.linkedin_url = p.linkedin_url ∧
      q.job_title = p.job_title ∧ q.company = p.company ∧
      q.location = p.location := by
  intro key api people i p q hp hq
  unfold enrich_with_clado at hq
  by_cases hk : keyTruthy key
  · rw [if_neg (by simpa using hk), List.getElem?_map, hp] at hq
    obtain rfl : enrichStep api p = q := by simpa using hq
    obtain ⟨n, lu, jt, co, lo, em, ph⟩ := enrichStep_fields api p
    exact ⟨em, ph, n, lu, jt, co, lo⟩
  · rw [if_pos (by simpa using hk), hp] at hq
    obtain rfl : p = q := by simpa using hq
    exact ⟨fun _ => rfl, fun _ => rfl, rfl, rfl, rfl, rfl, rfl⟩

/-- A record with every contact channel already populated. -/
def personFull : Person :=
  { name := .str "n", email := .str "a@b.c", phone := .str "123",
    linkedin_url := .str "li" }

/-- An enrichment oracle always answering 200 with one email contact
and one phone contact. -/
def cladoApiFull : EnrichQuery → HttpResult := fun _ =>
  .resp 200 (some (.obj [("data", .arr [.obj [("contacts", .arr
    [.obj [("type", .str "email"), ("value", .str "x@y.z")],
     .obj [("type", .str "phone"), ("value", .str "999")]])]])]))

/-- Witness for C3: a record with non-empty email and phone passes
through enrichment unchanged even though the provider offers new
values. -/
theorem c3_enrich_never_overwrites_witness :
    [personFull][0]? = some personFull ∧
    (enrich_with_clado (some "k") cladoApiFull [personFull])[0]?
      = some personFull ∧
    personFull.email = personFull.email ∧
    personFull.phone = personFull.phone := by
  have h := c3_enrich_never_overwrites (some "k") cladoApiFull
    [personFull] 0 personFull personFull rfl (by rfl)
  exact ⟨rfl, by rfl, h.1 (by rfl), h.2.1 (by rfl)⟩

/-- A record with only a LinkedIn URL, so enrichment looks it up and
may fill the empty email/phone. -/
def personLk : Person := { linkedin_url := .str "li" }

/-- Whether record `p`'s enrichment lookup failed in the claim's sense
(request raised, non-200 status, undecodable body, or body malformed
around the `data`/`contacts` extraction) BEFORE any contact entry was
processed. -/
def preContactFail (api : EnrichQuery → HttpResult) (p : Person) : Bool :=
  match enrichQueryOf p with
  | none => false
  | some q =>
    match api q with
    | .netError => true
    | .resp status body =>
      if status ≠ 200 then true
      else
        match body with
        | none => true
        | some data =>
          match extractContacts data with
          | .error _ => true
          | .ok _ => false

/-- The property claim C4 asserts: whenever any error occurred during
a record's lookup, that record appears unchanged in the output. -/
def enrichLeavesFailedUnchanged (cladoKey : Option String)
    (api : EnrichQuery → HttpResult) (people : List Person) : Prop :=
  ∀ (i : Nat) (p : Person), people[i]? = some p →
    enrichStepErr api p = true →
    (enrich_with_clado cladoKey api people)[i]? = some p

/-- An enrichment oracle answering 200 with a well-formed email
contact FOLLOWED by a malformed entry (no `type` key), so the loop
raises after having already filled the email. -/
def cladoApiPartial : EnrichQuery → HttpResult := fun _ =>
  .resp 200 (some (.obj [("data", .arr [.obj [("contacts", .arr
    [.obj [("type", .str "email"), ("value", .str "x@y.z")],
     .obj []])]])]))

/-- Counterexample to C4: an error does occur for the record (the
second contact entry is malformed and raises `KeyError`), yet the
record is NOT left unchanged — the email filled before the exception
is kept, because the `except` handler appends the partially mutated
object. -/
theorem c4_enrich_unchanged_counterexample :
    ¬ enrichLeavesFailedUnchanged (some "k") cladoApiPartial [personLk] := by
  intro h
  have h0 := h 0 personLk rfl (by rfl)
  have h2 : (enrich_with_clado (some "k") cladoApiPartial [personLk])[0]?
      = some { personLk with email := Json.str "x@y.z" } := by rfl
  rw [h2] at h0
  have h3 := congrArg Person.email (Option.some.inj h0)
  simp [personLk] at h3

/-- A broken enrichment oracle: every request raises. -/
def cladoApiDown : EnrichQuery → HttpResult := fun _ => .netError

/-- C4 (amended): enrichment always returns as many records as it
received and in order, each output record a function of its own input
record and that record's lookup outcome only (no early termination);
without a truthy key the batch passes through untouched; and a record
whose lookup fails before any contact entry is processed (network
failure, non-200 status, undecodable or structurally malformed body)
is left unchanged.  (A failure occurring partway through the contacts
list keeps the fills already applied — see the counterexample.) -/
theorem c4_enrich_batch_shape :
    (∀ (key : Option String) (api : EnrichQuery → HttpResult)
       (people : List Person),
      (enrich_with_clado key api people).length = people.length) ∧
    (∀ (key : Option String) (api : EnrichQuery → HttpResult)
       (people : List Person) (i : Nat), keyTruthy key = true →
      (enrich_with_clado key api people)[i]?
        = (people[i]?).map (enrichStep api)) ∧
    (∀ (key : Option String) (api : EnrichQuery → HttpResult)
       (people : List Person), keyTruthy key = false →
      enrich_with_clado key api people = people) ∧
    (∀ (api : EnrichQuery → HttpResult) (p : Person),
      preContactFail api p = true → enrichStep api p = p) := by
  refine ⟨?_, ?_, ?_, ?_⟩
  · intro key api people
    by_cases hk : keyTruthy key <;> simp [enrich_with_clado, hk]
  · intro key api people i hk
    simp [enrich_with_clado, hk]
  · intro key api people hk
    simp [enrich_with_clado, hk]
  · intro api p h
    cases hq : enrichQueryOf p with
    | none => simp [enrichStep, hq]
    | some q =>
      cases hr : api q with
      | netError => simp [enrichStep, enrichOne, hq, hr]
      | resp status body =>
        by_cases hs : status = 200
        · cases body with
          | none => simp [enrichStep, enrichOne, hq, hr, hs]
          | some data =>
            cases hx : extractContacts data with
            | error e => simp [enrichStep, enrichOne, hq, hr, hs, hx]
            | ok contacts =>
              simp [preContactFail, hq, hr, hs, hx] at h
        · simp [enrichStep, enrichOne, hq, hr, hs]

/-- Witness for C4 at a two-record batch whose every lookup fails with
a network error: the output has the input's length, position 1 is the
per-record image of input record 1, and the failed record is
unchanged. -/
theorem c4_enrich_batch_shape_witness :
    (enrich_with_clado (some "k") cladoApiDown [personLk, personFull]).length = 2 ∧
    (enrich_with_clado (some "k") cladoApiDown [personLk, personFull])[1]?
      = some (enrichStep cladoApiDown personFull) ∧
    keyTruthy (some "k") = true ∧
    preContactFail cladoApiDown personLk = true ∧
    enrichStep cladoApiDown personLk = personLk := by
  refine ⟨?_, ?_, by decide, by rfl,
    c4_enrich_batch_shape.2.2.2 cladoApiDown personLk (by rfl)⟩
  · have := c4_enrich_batch_shape.1 (some "k") cladoApiDown [personLk, personFull]
    simpa using this
  · have := c4_enrich_batch_shape.2.1 (some "k") cladoApiDown
      [personLk, personFull] 1 (by decide)
    simpa using this

/-- The value of a non-raising computation, `none` if it raised. -/
def exOk {α : Type} : Except Unit α → Option α
  | .ok a => some a
  | .error _ => none

theorem mapM_ok_pointwise {α β : Type} (f : α → Except Unit β)
    (l : List α) (out : List β) (h : l.mapM f = .ok out) :
    out.length = l.length ∧ ∀ i : Nat, out[i]? = (l[i]?).bind (fun a => exOk (f a)) := by
  induction l generalizing out with
  | nil =>
    simp only [List.mapM_nil, pure, Except.pure] at h
    cases h
    simp
  | cons a t ih =>
    rw [List.mapM_cons] at h
    cases hf : f a with
    | error e =>
      rw [hf] at h
      simp [Bind.bind, Except.bind] at h
    | ok b =>
      rw [hf] at h
      cases ht : t.mapM f with
      | error e =>
        rw [ht] at h
        simp [Bind.bind, Except.bind, pure, Except.pure] at h
      | ok bs =>
        rw [ht] at h
        simp only [Bind.bind, Except.bind, pure, Except.pure,
          Except.ok.injEq] at h
        subst h
        obtain ⟨hl, hp⟩ := ih bs ht
        refine ⟨by simp [hl], fun i => ?_⟩
        cases i with
        | zero => simp [hf, exOk]
        | succ n => simpa using hp n

/-- C7: whenever the Apollo normalization loop completes, it yields
exactly one record per item of the response's `people` list, in the
same order; no record is discarded, however empty its fields. -/
theorem c7_normalize_apollo_counts :
    ∀ (data : Json) (items : List Json) (ps : List Person),
      data.getD "people" (.arr []) = .arr items →
      normalizeApollo data = .ok ps →
      ps.length = items.length ∧
      ∀ i : Nat, ps[i]? = (items[i]?).bind (fun it => exOk (normApollo1 it)) := by
  intro data items ps hget hok
  cases data with
  | obj l =>
    rw [normalizeApollo, hget] at hok
    exact mapM_ok_pointwise normApollo1 items ps hok
  | null => exact absurd hok (by simp [normalizeApollo])
  | str s => exact absurd hok (by simp [normalizeApollo])
  | num n => exact absurd hok (by simp [normalizeApollo])
  | bool b => exact absurd hok (by simp [normalizeApollo])
  | arr a => exact absurd hok (by simp [normalizeApollo])

def apolloItemsTwo : List Json :=
  [.obj [("name", .str "A"), ("email", .str "a@x"), ("phone", .str "1"),
         ("linkedin_url", .str "liA"), ("title", .str "Eng"),
         ("organization", .obj [("name", .str "Acme")]), ("city", .str "NY")],
   .obj []]

/-- A two-item Apollo response: one fully populated person, one empty
object. -/
def apolloRespTwo : Json := .obj [("people", .arr apolloItemsTwo)]

def apolloRecsTwo : List Person :=
  [{ name := .str "A", email := .str "a@x", phone := .str "1",
     linkedin_url := .str "liA", job_title := .str "Eng",
     company := .str "Acme", location := .str "NY" },
   {}]

/-- Witness for C7: the two-item response normalizes to two records in
order, the all-empty item included. -/
theorem c7_normalize_apollo_counts_witness :
    apolloRespTwo.getD "people" (.arr []) = .arr apolloItemsTwo ∧
    normalizeApollo apolloRespTwo = .ok apolloRecsTwo ∧
    apolloRecsTwo.length = apolloItemsTwo.length ∧
    apolloRecsTwo[1]? = (apolloItemsTwo[1]?).bind (fun it => exOk (normApollo1 it)) := by
  have h := c7_normalize_apollo_counts apolloRespTwo apolloItemsTwo
    apolloRecsTwo rfl (by rfl)
  exact ⟨rfl, by rfl, h.1, h.2 1⟩

theorem getD_eq_lookup (l : List (String × Json)) (k : String) (d : Json) :
    (Json.obj l).getD k d = (l.lookup k).getD d := by
  induction l with
  | nil => rfl
  | cons kv t ih =>
    obtain ⟨k', v⟩ := kv
    by_cases h : k' = k
    · subst h
      simp [Json.getD, List.lookup, List.find?]
    · have h1 : (k' == k) = false := by simpa using h
      have h2 : (k == k') = false := by simpa using Ne.symm h
      simp only [Json.getD, List.lookup, List.find?, h1, h2]
      simpa [Json.getD] using ih

theorem normApollo1_ok (pd : Json) (r : Person) (h : normApollo1 pd = .ok r) :
    r.name = pd.getD "name" (.str "") ∧
    r.email = pd.getD "email" (.str "") ∧
    r.phone = pd.getD "phone" (.str "") ∧
    r.linkedin_url = pd.getD "linkedin_url" (.str "") ∧
    r.job_title = pd.getD "title" (.str "") ∧
    r.company = (pd.getD "organization" (.obj [])).getD "name" (.str "") ∧
    r.location = pd.getD "city" (.str "") := by
  cases pd with
  | obj l =>
    rw [normApollo1] at h
    cases horg : (Json.obj l).getD "organization" (.obj []) with
    | obj ol =>
      rw [horg] at h
      obtain rfl : _ = r := by simpa using h
      simp [horg]
    | null => rw [horg] at h; simp at h
    | str s => rw [horg] at h; simp at h
    | num n => rw [horg] at h; simp at h
    | bool b => rw [horg] at h; simp at h
    | arr a => rw [horg] at h; simp at h
  | null => simp [normApollo1] at h
  | str s => simp [normApollo1] at h
  | num n => simp [normApollo1] at h
  | bool b => simp [normApollo1] at h
  | arr a => simp [normApollo1] at h

theorem normHunter1_ok (orgVal ed : Json) (r : Person)
    (h : normHunter1 orgVal ed = .ok r) :
    r.name = .str (pyStrip ((ed.getD "first_name" (.str "")).pyStr ++ " "
        ++ (ed.getD "last_name" (.str "")).pyStr)) ∧
    r.email = ed.getD "value" (.str "") ∧
    r.phone = .str "" ∧
    r.job_title = ed.getD "position" (.str "") ∧
    r.company = orgVal ∧
    r.linkedin_url = ed.getD "linkedin" (.str "") ∧
    r.location = .str "" := by
  cases ed with
  | obj l =>
    rw [normHunter1] at h
    obtain rfl : _ = r := by simpa using h
    simp
  | null => simp [normHunter1] at h
  | str s => simp [normHunter1] at h
  | num n => simp [normHunter1] at h
  | bool b => simp [normHunter1] at h
  | arr a => simp [normHunter1] at h

/-- The no-null-propagation property claim C8 asserts of every
normalized record. -/
def noNullField (p : Person) : Prop :=
  p.name ≠ .null ∧ p.email ≠ .null ∧ p.phone ≠ .null ∧
  p.linkedin_url ≠ .null ∧ p.job_title ≠ .null ∧ p.company ≠ .null ∧
  p.location ≠ .null

/-- An Apollo response whose single person carries an explicit JSON
null name. -/
def apolloRespNull : Json :=
  .obj [("people", .arr [.obj [("name", Json.null)]])]

/-- Counterexample to C8: `dict.get(key, default)` only substitutes
the default for a MISSING key, so an explicit null supplied by the
provider lands in the record as-is. -/
theorem c8_null_counterexample :
    normalizeApollo apolloRespNull = .ok [{ name := Json.null }] ∧
    ¬ noNullField { name := Json.null } := by
  exact ⟨by rfl, fun h => h.1 rfl⟩

/-- C8 (amended): a field the provider OMITS defaults to the empty
string, in both normalizers; but a field supplied with an explicit
null is copied through as null (null does propagate); the Hunter name
is always a string since it is built by an f-string. -/
theorem c8_empty_string_defaults :
    (∀ (l : List (String × Json)) (r : Person),
      normApollo1 (.obj l) = .ok r →
      (l.lookup "name" = none → r.name = .str "") ∧
      (l.lookup "email" = none → r.email = .str "") ∧
      (l.lookup "phone" = none → r.phone = .str "") ∧
      (l.lookup "linkedin_url" = none → r.linkedin_url = .str "") ∧
      (l.lookup "title" = none → r.job_title = .str "") ∧
      (l.lookup "city" = none → r.location = .str "") ∧
      (l.lookup "organization" = none → r.company = .str "") ∧
      (l.lookup "name" = some Json.null → r.name = Json.null)) ∧
    (∀ (orgVal : Json) (l : List (String × Json)) (r : Person),
      normHunter1 orgVal (.obj l) = .ok r →
      (l.lookup "value" = none → r.email = .str "") ∧
      (l.lookup "value" = some Json.null → r.email = Json.null) ∧
      (∃ s, r.name = .str s)) := by
  constructor
  · intro l r h
    obtain ⟨hn, he, hp, hl, hj, hc, hlo⟩ := normApollo1_ok (.obj l) r h
    rw [getD_eq_lookup] at hn he hp hl hj hlo
    rw [getD_eq_lookup] at hc
    refine ⟨fun hx => by simp [hn, hx], fun hx => by simp [he, hx],
      fun hx => by simp [hp, hx], fun hx => by simp [hl, hx],
      fun hx => by simp [hj, hx], fun hx => by simp [hlo, hx],
      fun hx => ?_, fun hx => by simp [hn, hx]⟩
    rw [hc, hx]
    rfl
  · intro orgVal l r h
    obtain ⟨hn, he, _, _, _, _, _⟩ := normHunter1_ok orgVal (.obj l) r h
    rw [getD_eq_lookup] at he
    exact ⟨fun hx => by simp [he, hx], fun hx => by simp [he, hx],
      ⟨_, hn⟩⟩

/-- Witness for C8 (amended): the empty Apollo item yields all-empty
string fields; the null-name item yields a null name; an empty Hunter
item yields an empty email and the name " ".strip() = "". -/
theorem c8_empty_string_defaults_witness :
    normApollo1 (.obj []) = .ok ({} : Person) ∧
    ({} : Person).name = .str "" ∧ ({} : Person).company = .str "" ∧
    normApollo1 (.obj [("name", Json.null)]) = .ok { name := Json.null } ∧
    ({ name := Json.null } : Person).name = Json.null ∧
    normHunter1 (.str "org") (.obj []) = .ok
      { name := .str "", company := .str "org" } ∧
    ({ name := .str "", company := .str "org" } : Person).email = .str "" := by
  have h1 := c8_empty_string_defaults.1 [] ({} : Person) (by rfl)
  have h2 := c8_empty_string_defaults.1 [("name", Json.null)]
    { name := Json.null } (by rfl)
  have h3 := c8_empty_string_defaults.2 (.str "org") []
    { name := .str "", company := .str "org" } (by rfl)
  exact ⟨by rfl, h1.1 rfl, h1.2.2.2.2.2.2.1 rfl, by rfl, h2.2.2.2.2.2.2.2 rfl,
    by rfl, h3.1 rfl⟩

/-- C10: the Hunter normalization path never populates `phone` or
`location`; every record it produces has the empty string in both, so
any phone on a Hunter-sourced record can only come from enrichment. -/
theorem c10_hunter_empty_phone_location :
    ∀ (data : Json) (ps : List Person),
      normalizeHunter data = .ok ps →
      ∀ p ∈ ps, p.phone = .str "" ∧ p.location = .str "" := by
  intro data ps hok p hp
  cases data with
  | obj l =>
    rw [normalizeHunter] at hok
    cases hd : (Json.obj l).getD "data" (.obj []) with
    | obj il =>
      simp only [hd] at hok
      cases hem : (Json.obj il).getD "emails" (.arr []) with
      | arr items =>
        simp only [hem] at hok
        obtain ⟨i, hi⟩ := List.mem_iff_getElem?.mp hp
        have hpw := (mapM_ok_pointwise _ items ps hok).2 i
        rw [hi] at hpw
        cases hit : items[i]? with
        | none => rw [hit] at hpw; simp at hpw
        | some it =>
          rw [hit] at hpw
          simp only [Option.some_bind] at hpw
          cases hN : normHunter1 ((Json.obj il).getD "organization" (.str "")) it with
          | error e => rw [hN] at hpw; simp [exOk] at hpw
          | ok r =>
            rw [hN] at hpw
            have hpr : p = r := by simpa [exOk] using hpw
            obtain ⟨_, _, hph, _, _, _, hloc⟩ := normHunter1_ok _ it r hN
            rw [hpr]
            exact ⟨hph, hloc⟩
      | null => simp [hem] at hok
      | str s => simp [hem] at hok
      | num n => simp [hem] at hok
      | bool b => simp [hem] at hok
      | obj o => simp [hem] at hok
    | null => simp [hd] at hok
    | str s => simp [hd] at hok
    | num n => simp [hd] at hok
    | bool b => simp [hd] at hok
    | arr a => simp [hd] at hok
  | null => simp [normalizeHunter] at hok
  | str s => simp [normalizeHunter] at hok
  | num n => simp [normalizeHunter] at hok
  | bool b => simp [normalizeHunter] at hok
  | arr a => simp [normalizeHunter] at hok

/-- A one-email Hunter response. -/
def hunterRespOne : Json :=
  .obj [("data", .obj [("organization", .str "Acme"),
    ("emails", .arr [.obj [("first_name", .str "Bo"),
      ("last_name", .str "Li"), ("value", .str "bo@a"),
      ("position", .str "Eng"), ("linkedin", .str "li")]])])]

/-- The record `hunterRespOne` normalizes to. -/
def hunterRecOne : Person :=
  { name := .str "Bo Li", email := .str "bo@a", job_title := .str "Eng",
    company := .str "Acme", linkedin_url := .str "li" }

/-- Witness for C10 on a concrete Hunter response. -/
theorem c10_hunter_empty_phone_location_witness :
    normalizeHunter hunterRespOne = .ok [hunterRecOne] ∧
    hunterRecOne.phone = .str "" ∧ hunterRecOne.location = .str "" := by
  refine ⟨by rfl, ?_⟩
  exact c10_hunter_empty_phone_location hunterRespOne [hunterRecOne]
    (by rfl) hunterRecOne (List.Mem.head _)

/-- Counterexample to C9: two different non-success responses (status
404 with one body, status 500 with another) produce the SAME
caller-visible result from `people_search` — a plain `None` return —
so that result carries neither the status code nor the body; the
status and body are only printed, not signalled to the caller. -/
theorem c9_error_signal_counterexample :
    people_search (some "k") {} (.resp 404 (some (.str "not found")))
      = people_search (some "k") {} (.resp 500 (some (.str "server error"))) ∧
    people_search (some "k") {} (.resp 404 (some (.str "not found")))
      = .ok none ∧
    (404 : Nat) ≠ 500 := by
  exact ⟨rfl, rfl, by decide⟩

/-- C9 (amended): the standalone clients (`people_search`,
`domain_search`) print the status and body on any non-200 status and
return `None` to the caller, and return the raw decoded JSON body on a
200; `main.py`'s clients raise, exactly for the statuses in [400, 600)
for which `raise_for_status` raises, an exception whose message embeds
the status (not the body), and on a 200 whose body normalizes they
return the normalized records rather than the raw body. -/
theorem c9_client_error_contract :
    (∀ (k : Option String) (a : PSArgs) (status : Nat) (body : Option Json),
      keyTruthy k = true → status ≠ 200 →
      people_search k a (.resp status body) = .ok none) ∧
    (∀ (k : Option String) (a : PSArgs) (data : Json),
      keyTruthy k = true →
      people_search k a (.resp 200 (some data)) = .ok (some data)) ∧
    (∀ (d : String) (jt : Option String) (status : Nat) (body : Option Json),
      status ≠ 200 →
      domain_search d jt (.resp status body) = .ok none) ∧
    (∀ (d : String) (jt : Option String) (data : Json),
      domain_search d jt (.resp 200 (some data)) = .ok (some data)) ∧
    (∀ (k : Option String) (c : Criteria) (status : Nat) (body : Option Json),
      keyTruthy k = true → 400 ≤ status → status < 600 →
      search_people_apollo k c (.resp status body)
        = .error (.httpStatus status)) ∧
    (∀ (k : Option String) (d : String) (status : Nat) (body : Option Json),
      keyTruthy k = true → 400 ≤ status → status < 600 →
      search_people_hunter k d (.resp status body)
        = .error (.httpStatus status)) ∧
    (∀ (k : Option String) (c : Criteria) (data : Json) (ps : List Person),
      keyTruthy k = true → normalizeApollo data = .ok ps →
      search_people_apollo k c (.resp 200 (some data)) = .ok ps) ∧
    (∀ (k : Option String) (d : String) (data : Json) (ps : List Person),
      keyTruthy k = true → normalizeHunter data = .ok ps →
      search_people_hunter k d (.resp 200 (some data)) = .ok ps) := by
  refine ⟨?_, ?_, ?_, ?_, ?_, ?_, ?_, ?_⟩
  · intro k a status body hk hs
    simp [people_search, hk, hs]
  · intro k a data hk
    simp [people_search, hk]
  · intro d jt status body hs
    simp [domain_search, hs]
  · intro d jt data
    simp [domain_search]
  · intro k c status body hk hs hs6
    simp [search_people_apollo, hk, hs, hs6]
  · intro k d status body hk hs hs6
    simp [search_people_hunter, hk, hs, hs6]
  · intro k c data ps hk hn
    simp [search_people_apollo, hk, hn]
  · intro k d data ps hk hn
    simp [search_people_hunter, hk, hn]

/-- Witness for C9 (amended) at concrete statuses and bodies: note
`main.py`'s Apollo client returns `Person` records (not the raw JSON)
on a 200. -/
theorem c9_client_error_contract_witness :
    people_search (some "k") {} (.resp 404 (some (.str "b"))) = .ok none ∧
    people_search (some "k") {} (.resp 200 (some (.str "raw")))
      = .ok (some (.str "raw")) ∧
    domain_search "x.com" none (.resp 500 none) = .ok none ∧
    domain_search "x.com" none (.resp 200 (some (.num 3)))
      = .ok (some (.num 3)) ∧
    search_people_apollo (some "k") {} (.resp 403 (some (.str "denied")))
      = .error (.httpStatus 403) ∧
    search_people_hunter (some "k") "meta.com" (.resp 500 none)
      = .error (.httpStatus 500) ∧
    search_people_apollo (some "k") {} (.resp 200 (some apolloRespTwo))
      = .ok apolloRecsTwo ∧
    search_people_hunter (some "k") "meta.com" (.resp 200 (some hunterRespOne))
      = .ok [hunterRecOne] := by
  exact ⟨c9_client_error_contract.1 (some "k") {} 404 (some (.str "b"))
      (by decide) (by decide),
    c9_client_error_contract.2.1 (some "k") {} (.str "raw") (by decide),
    c9_client_error_contract.2.2.1 "x.com" none 500 none (by decide),
    c9_client_error_contract.2.2.2.1 "x.com" none (.num 3),
    c9_client_error_contract.2.2.2.2.1 (some "k") {} 403 (some (.str "denied"))
      (by decide) (by decide) (by decide),
    c9_client_error_contract.2.2.2.2.2.1 (some "k") "meta.com" 500 none
      (by decide) (by decide) (by decide),
    c9_client_error_contract.2.2.2.2.2.2.1 (some "k") {} apolloRespTwo
      apolloRecsTwo (by decide) (by rfl),
    c9_client_error_contract.2.2.2.2.2.2.2 (some "k") "meta.com" hunterRespOne
      [hunterRecOne] (by decide) (by rfl)⟩

/-- The criteria the FAANG branch builds (`main.py` lines 217-221). -/
def faangCriteria : Criteria :=
  { company_names := some faangCompanies, limit := some 50 }

/-- The records one Apollo call contributes to the aggregation
(zero on any caught exception). -/
def apolloPart (cfg : Config) (api : Oracles) (c : Criteria) : List Person :=
  exceptRecords (search_people_apollo cfg.apolloKey c (api.apollo c))

/-- The records one Hunter domain call contributes to the aggregation
(zero on any caught exception). -/
def hunterPart (cfg : Config) (api : Oracles) (d : String) : List Person :=
  exceptRecords (search_people_hunter cfg.hunterKey d (api.hunter d))

theorem hunter_foldl (cfg : Config) (api : Oracles) (ds : List String)
    (init : List Person) :
    ds.foldl (fun acc d =>
        if keyTruthy cfg.hunterKey then
          match search_people_hunter cfg.hunterKey d (api.hunter d) with
          | .ok ps => acc ++ ps
          | .error _ => acc
        else acc) init
      = init ++ (ds.map (fun d =>
          if keyTruthy cfg.hunterKey then hunterPart cfg api d else [])).flatten := by
  induction ds generalizing init with
  | nil => simp
  | cons d t ih =>
    rw [List.foldl_cons, ih]
    cases hk : keyTruthy cfg.hunterKey
    · simp [hk]
    · simp only [hk, if_true]
      cases hs : search_people_hunter cfg.hunterKey d (api.hunter d) with
      | ok ps => simp [hunterPart, hs, exceptRecords, List.append_assoc]
      | error e => simp [hunterPart, hs, exceptRecords]

theorem faang_output_eq (cfg : Config) (api : Oracles) (q : String)
    (hf : pyContains (pyLower q) "faang" = true)
    (hc : keyTruthy cfg.cladoKey = false) :
    search_by_natural_language cfg api q
      = (if keyTruthy cfg.apolloKey then apolloPart cfg api faangCriteria else [])
        ++ (faangDomains.map (fun d =>
            if keyTruthy cfg.hunterKey then hunterPart cfg api d else [])).flatten := by
  have hcl : classify q = .faang faangCriteria faangDomains := by
    simp [classify, hf, faangCriteria]
  simp only [search_by_natural_language, hcl]
  rw [hunter_foldl]
  simp [maybeEnrich, hc, apolloPart]

theorem faang_concat_eq (cfg : Config) (api : Oracles) (q : String)
    (hf : pyContains (pyLower q) "faang" = true) :
    search_by_natural_language cfg api q
      = maybeEnrich cfg api
          ((if keyTruthy cfg.apolloKey then apolloPart cfg api faangCriteria else [])
            ++ (faangDomains.map (fun d =>
                if keyTruthy cfg.hunterKey then hunterPart cfg api d else [])).flatten) := by
  have hcl : classify q = .faang faangCriteria faangDomains := by
    simp [classify, hf, faangCriteria]
  simp only [search_by_natural_language, hcl]
  rw [hunter_foldl]
  simp [apolloPart]

theorem maybeEnrich_eq_enrich (cfg : Config) (api : Oracles)
    (l : List Person) (hk : keyTruthy cfg.cladoKey = true) :
    maybeEnrich cfg api l = enrich_with_clado cfg.cladoKey api.clado l := by
  cases l with
  | nil => simp [maybeEnrich, enrich_with_clado, hk]
  | cons p t => simp [maybeEnrich, enrich_with_clado, hk]

/-- C5: on a FAANG query with both Apollo and Hunter keys configured,
the aggregator assembles all Apollo records first, then the Hunter
records per domain in the fixed order meta.com, apple.com, amazon.com,
netflix.com, google.com — returned as-is when no enrichment key is
configured, and passed through the order-preserving enrichment client
otherwise; and on a query that matches neither branch it returns the
empty sequence. -/
theorem c5_faang_aggregation_order :
    (∀ (cfg : Config) (api : Oracles) (q : String),
      pyContains (pyLower q) "faang" = true →
      keyTruthy cfg.apolloKey = true →
      keyTruthy cfg.hunterKey = true →
      keyTruthy cfg.cladoKey = false →
      search_by_natural_language cfg api q
        = apolloPart cfg api faangCriteria
          ++ (faangDomains.map (hunterPart cfg api)).flatten) ∧
    (∀ (cfg : Config) (api : Oracles) (q : String),
      pyContains (pyLower q) "faang" = true →
      keyTruthy cfg.apolloKey = true →
      keyTruthy cfg.hunterKey = true →
      keyTruthy cfg.cladoKey = true →
      search_by_natural_language cfg api q
        = enrich_with_clado cfg.cladoKey api.clado
            (apolloPart cfg api faangCriteria
              ++ (faangDomains.map (hunterPart cfg api)).flatten)) ∧
    (∀ (cfg : Config) (api : Oracles) (q : String),
      classify q = Classification.noMatch →
      search_by_natural_language cfg api q = []) := by
  refine ⟨?_, ?_, ?_⟩
  · intro cfg api q hf ha hh hc
    rw [faang_output_eq cfg api q hf hc]
    simp [ha, hh]
  · intro cfg api q hf ha hh hc
    rw [faang_concat_eq cfg api q hf, maybeEnrich_eq_enrich cfg api _ hc]
    simp [ha, hh]
  · intro cfg api q h
    simp [search_by_natural_language, h, maybeEnrich]

/-- A demo oracle: Apollo yields one record; Hunter yields one record
per domain carrying the domain as the email. -/
def oraclesDemo : Oracles where
  apollo := fun _ => .resp 200 (some (.obj [("people",
    .arr [.obj [("name", .str "AP")]])]))
  hunter := fun d => .resp 200 (some (.obj [("data", .obj
    [("organization", .str "O"),
     ("emails", .arr [.obj [("value", .str d)]])])]))
  clado := fun _ => .netError

/-- Configuration with Apollo and Hunter keys, no Clado key. -/
def cfgAH : Config :=
  { apolloKey := some "a", hunterKey := some "h", cladoKey := none }

/-- Configuration with only an Apollo key. -/
def cfgA : Config :=
  { apolloKey := some "a", hunterKey := none, cladoKey := none }

/-- Configuration with all three keys. -/
def cfgAHC : Config :=
  { apolloKey := some "a", hunterKey := some "h", cladoKey := some "c" }

/-- Witness for C5 on the spec's FAANG example query, with and without
an enrichment key, and on the no-match example. -/
theorem c5_faang_aggregation_order_witness :
    pyContains (pyLower "People working in FAANG") "faang" = true ∧
    search_by_natural_language cfgAH oraclesDemo "People working in FAANG"
      = apolloPart cfgAH oraclesDemo faangCriteria
        ++ (faangDomains.map (hunterPart cfgAH oraclesDemo)).flatten ∧
    search_by_natural_language cfgAHC oraclesDemo "People working in FAANG"
      = enrich_with_clado cfgAHC.cladoKey oraclesDemo.clado
          (apolloPart cfgAHC oraclesDemo faangCriteria
            ++ (faangDomains.map (hunterPart cfgAHC oraclesDemo)).flatten) ∧
    search_by_natural_language cfgAH oraclesDemo "something unrelated" = [] := by
  exact ⟨by decide,
    c5_faang_aggregation_order.1 cfgAH oraclesDemo "People working in FAANG"
      (by decide) (by decide) (by decide) (by decide),
    c5_faang_aggregation_order.2.1 cfgAHC oraclesDemo "People working in FAANG"
      (by decide) (by decide) (by decide) (by decide),
    c5_faang_aggregation_order.2.2 cfgAH oraclesDemo "something unrelated"
      (by decide)⟩

/-- C6: a failing provider call (missing key, HTTP error, network
error) is caught and contributes zero records without aborting the
aggregation: if the Apollo call fails on a FAANG query, the Hunter
records are still returned; a failing Hunter domain call contributes
the empty list (the other domains are unaffected by the general
aggregation equation); and on a job-title query a failing Apollo call
yields the empty result rather than an exception. -/
theorem c6_provider_failure_isolated :
    (∀ (cfg : Config) (api : Oracles) (q : String),
      pyContains (pyLower q) "faang" = true →
      keyTruthy cfg.cladoKey = false →
      (∀ e, search_people_apollo cfg.apolloKey faangCriteria
          (api.apollo faangCriteria) = .error e →
        search_by_natural_language cfg api q
          = (faangDomains.map (fun d =>
              if keyTruthy cfg.hunterKey then hunterPart cfg api d else [])).flatten) ∧
      (∀ (d : String) (e : ProviderError),
        search_people_hunter cfg.hunterKey d (api.hunter d) = .error e →
        hunterPart cfg api d = [])) ∧
    (∀ (cfg : Config) (api : Oracles) (q : String) (c : Criteria),
      classify q = Classification.jobTitle c →
      keyTruthy cfg.cladoKey = false →
      ∀ e, search_people_apollo cfg.apolloKey c (api.apollo c) = .error e →
        search_by_natural_language cfg api q = []) := by
  constructor
  · intro cfg api q hf hc
    constructor
    · intro e herr
      rw [faang_output_eq cfg api q hf hc]
      have hz : (if keyTruthy cfg.apolloKey then
          apolloPart cfg api faangCriteria else []) = [] := by
        cases hk : keyTruthy cfg.apolloKey
        · simp
        · simp [apolloPart, herr, exceptRecords]
      rw [hz, List.nil_append]
    · intro d e herr
      simp [hunterPart, herr, exceptRecords]
  · intro cfg api q c hcl hc e herr
    simp only [search_by_natural_language, hcl]
    have hz : (if keyTruthy cfg.apolloKey then
        exceptRecords (search_people_apollo cfg.apolloKey c (api.apollo c))
        else []) = [] := by
      cases hk : keyTruthy cfg.apolloKey
      · simp
      · simp [herr, exceptRecords]
    rw [hz]
    simp [maybeEnrich]

/-- An oracle whose Apollo endpoint is down and whose Hunter endpoint
fails with a 500 for meta.com and succeeds for the other domains. -/
def oraclesMixed : Oracles where
  apollo := fun _ => .netError
  hunter := fun d =>
    if d = "meta.com" then .resp 500 (some (.str "err"))
    else .resp 200 (some (.obj [("data", .obj
      [("organization", .str "O"),
       ("emails", .arr [.obj [("value", .str d)]])])]))
  clado := fun _ => .netError

/-- Witness for C6: with Apollo down, the FAANG aggregation still
returns the Hunter records; the failing meta.com call contributes
zero records; and a job-title query with Apollo down yields []. -/
theorem c6_provider_failure_isolated_witness :
    search_people_apollo (some "a") faangCriteria .netError
      = .error .netFail ∧
    search_by_natural_language cfgAH oraclesMixed "People working in FAANG"
      = (faangDomains.map (fun d =>
          if keyTruthy cfgAH.hunterKey then hunterPart cfgAH oraclesMixed d
          else [])).flatten ∧
    hunterPart cfgAH oraclesMixed "meta.com" = [] ∧
    search_by_natural_language cfgA oraclesMixed
      "Software engineers at Google" = [] := by
  refine ⟨by rfl, ?_, ?_, ?_⟩
  · exact (c6_provider_failure_isolated.1 cfgAH oraclesMixed
      "People working in FAANG" (by decide) (by decide)).1
      ProviderError.netFail (by rfl)
  · exact (c6_provider_failure_isolated.1 cfgAH oraclesMixed
      "People working in FAANG" (by decide) (by decide)).2
      "meta.com" (ProviderError.httpStatus 500) (by rfl)
  · exact c6_provider_failure_isolated.2 cfgA oraclesMixed
      "Software engineers at Google"
      { job_titles := some ["Software Engineer", "Senior Software Engineer",
          "Developer"], limit := some 25 }
      (by decide) (by decide) ProviderError.netFail (by rfl)
